/-
Verification of RetroArch's optical-disc image identifier
(src/tasks/task_database_cue.c): tokenizer, CUE/GDI playlist scanners,
magic-number system detector, and per-console serial extractors.

Modelling conventions:
* The external byte-stream abstraction (intfstream_*) is modelled either as a
  `List Char` consumed sequentially (for the token-driven CUE/GDI parsers) or
  as a random-access `ByteStream` (size + byte function) for the fixed-offset
  readers.  A `Char` stands for one byte.
* C integer types are modelled as `Int`/`Nat` with explicit wrapping
  (`% 2^64`) exactly where the C code performs a conversion that can wrap.
* Fallible C functions returning an int status plus out-parameters are
  modelled as functions into `Option`/inductive result types.
-/
import Mathlib

set_option maxRecDepth 10000

namespace RetroArchCue

/-! ## Byte/character classification helpers -/

/-- The whitespace set of `get_token` (src line 101-104): space, tab, CR, LF. -/
def isTokWS (c : Char) : Bool :=
  c == ' ' || c == '\t' || c == '\r' || c == '\n'

/-- C `isspace` on the ASCII range: space, \t, \n, \v, \f, \r. -/
def isSpaceC (c : Char) : Bool :=
  c == ' ' || (9 ≤ c.toNat && c.toNat ≤ 13)

/-- A character that neither terminates nor quotes a token. -/
def plainChar (c : Char) : Bool :=
  !(isTokWS c) && c != '"'

/-- ASCII lower-casing, as C `tolower` on ASCII bytes. -/
def lowerA (c : Char) : Char :=
  if 'A' ≤ c && c ≤ 'Z' then Char.ofNat (c.toNat + 32) else c

/-- Model of `string_is_equal_noncase` (external libretro-common helper):
ASCII case-insensitive string equality. -/
def strCaseEq (a b : String) : Bool :=
  a.data.map lowerA == b.data.map lowerA

/-! ## Tokenizer: `get_token` (src lines 75-133)

The C function reads one byte at a time from the stream into a caller buffer.
We model the unread remainder of the stream as a `List Char` and return
`some (token, rest)` when the C function returns a positive length, and
`none` when it returns `0` (end of stream reached, including end of stream in
the middle of a token: the C code returns 0 from `if (rv == 0) return 0;`
without terminating the accumulated buffer).  Every positive return of the C
function carries length ≥ 1 (whitespace and closing-quote returns only happen
with at least one accumulated byte), so `Option` is a faithful encoding of the
`> 0` tests done by all callers.  `acc` holds the accumulated bytes in reverse
(the buffer contents), `instr` is the C `in_string` flag. -/

def gtok_acc (max_len : Nat) : List Char → List Char → Bool → Option (List Char × List Char)
  | [], _, _ => none
  | c :: rest, acc, instr =>
    if isTokWS c then
      -- `if (c == token) continue;` : skip when nothing accumulated yet
      if acc.isEmpty then gtok_acc max_len rest acc instr
      else if instr then
        -- inside a quoted string, whitespace is accumulated
        let acc1 := c :: acc
        if acc1.length == max_len then some (acc1.reverse, rest)
        else gtok_acc max_len rest acc1 instr
      else some (acc.reverse, rest)
    else if c == '"' then
      -- opening quote (nothing accumulated): enter string mode
      if acc.isEmpty then gtok_acc max_len rest acc true
      -- any later quote terminates the token
      else some (acc.reverse, rest)
    else
      let acc1 := c :: acc
      if acc1.length == max_len then some (acc1.reverse, rest)
      else gtok_acc max_len rest acc1 instr

/-- `get_token(fd, token, MAX_TOKEN_LEN)` with `MAX_TOKEN_LEN = 255`. -/
def get_token (input : List Char) : Option (List Char × List Char) :=
  gtok_acc 255 input [] false

/-- Repeatedly call `get_token` until it reports end of stream, collecting the
returned tokens (this is the `while (get_token(...) > 0)` pattern used by the
CUE and GDI scanners).  Fuel-based; `tokensOf` supplies enough fuel, since
every successful `get_token` consumes at least one input byte. -/
def tokensGo : Nat → List Char → List (List Char)
  | 0, _ => []
  | fuel + 1, input =>
    match get_token input with
    | none => []
    | some (t, rest) => t :: tokensGo fuel rest

def tokensOf (input : List Char) : List (List Char) :=
  tokensGo (input.length + 1) input

/-- Join byte-level tokens with single spaces (no trailing delimiter). -/
def sepSp : List (List Char) → List Char
  | [] => []
  | [t] => t
  | t :: ts => t ++ ' ' :: sepSp ts

/-- A well-formed token for the round-trip property: non-empty, shorter than
the 255-byte bound, and free of whitespace and quote characters. -/
def wfTok (t : List Char) : Prop :=
  t ≠ [] ∧ t.length < 255 ∧ ∀ c ∈ t, plainChar c = true

instance wfTok_decidable : DecidablePred wfTok := fun t => by
  unfold wfTok; infer_instance

/-! ## CUE playlist scanner: `update_cand` and `cue_find_track`
(src lines 924-1089) -/

/-- Conversion of a C `int64_t` expression to `uint64_t`: reduction modulo
`2^64` of the signed value. -/
def u64wrap (x : Int) : Nat := (x % (2 ^ 64 : Int)).toNat

/-- Conversion of a `uint64_t` value to `int64_t` (the gcc wrapping
behaviour for the implementation-defined out-of-range case). -/
def i64ofU64 (n : Nat) : Int :=
  if n < 2 ^ 63 then (n : Int) else (n : Int) - 2 ^ 64

def digitVal (c : Char) : Int := ((c.toNat - 48 : Nat) : Int)

/-- Modelled from the spec: one `%02d` conversion of the C library `sscanf`
(an external libc routine): skip leading whitespace, then an optional sign
followed by digits, reading at most two characters in total (the sign counts
towards the field width); at least one digit must be converted, otherwise the
conversion fails. -/
def scanInt2 (s : List Char) : Option (Int × List Char) :=
  match s.dropWhile isSpaceC with
  | [] => none
  | c1 :: r1 =>
    if c1 == '-' then
      match r1 with
      | [] => none
      | d :: rest => if d.isDigit then some (-(digitVal d), rest) else none
    else if c1 == '+' then
      match r1 with
      | [] => none
      | d :: rest => if d.isDigit then some (digitVal d, rest) else none
    else if c1.isDigit then
      match r1 with
      | [] => some (digitVal c1, [])
      | d2 :: rest =>
        if d2.isDigit then some (10 * digitVal c1 + digitVal d2, rest)
        else some (digitVal c1, d2 :: rest)
    else none

/-- A literal `:` in a `sscanf` format string matches exactly one `:`. -/
def matchColon (s : List Char) : Option (List Char) :=
  match s with
  | [] => none
  | c :: rest => if c == ':' then some rest else none

/-- Modelled from the spec: `sscanf(tok, "%02d:%02d:%02d", &m, &s, &f)`
(external libc routine); `some` exactly when all three fields convert, i.e.
when the C call returns 3 (the code treats `< 3` as a parse error). -/
def sscanf_msf (tok : List Char) : Option (Int × Int × Int) := do
  let (m, r1) ← scanInt2 tok
  let r2 ← matchColon r1
  let (s, r3) ← scanInt2 r2
  let r4 ← matchColon r3
  let (f, _) ← scanInt2 r4
  pure (m, s, f)

/-- Modelled from the spec: `fill_pathname_join` (external libretro-common
path helper) joins a referenced file name against the playlist file's
directory; the spec says "join `<name>` against the CUE file's directory".
Modelled as concatenation of the (separator-terminated) directory with the
name. -/
def joinPath (dir name : String) : String := dir ++ name

/-- Model of BSD `strlcpy(dst, src, n)` (external libretro-common compat
routine): copies at most `n - 1` characters of `src` into `dst`; when
`n = 0` nothing is written and `dst` keeps its previous contents. -/
def strlcpyStr (dst src : String) (n : Nat) : String :=
  if n = 0 then dst else String.mk (src.data.take (n - 1))

/-- Result of `cue_find_track`: `ok` models return value 0 with the three
out-parameters; `notFound` models the `-EINVAL` clean exit (no candidate ever
won); `parseError` models the `goto error` taken on a bad `INDEX`
timestamp. -/
inductive CueOut where
  | ok (offset size : Nat) (path : String)
  | notFound
  | parseError
deriving DecidableEq

/-- The local state of `cue_find_track`'s scan loop, one field per C local,
plus the out-parameters `offset`/`size`/`path` (whose C initial contents are
caller-owned; they are only ever read back after a successful
`update_cand`) and `rv_ok` standing for `rv == 0`. -/
structure CueSt where
  last_index : Int := -1
  cand_index : Int := -1
  cand_track : Int := -1
  track : Int := 0
  largest : Nat := 0
  file_size : Int := -1
  is_data : Bool := false
  last_file : String := ""
  offset : Nat := 0
  size : Nat := 0
  path : String := ""
  rv_ok : Bool := false
deriving DecidableEq

/-- `update_cand` (src lines 937-955).  The C code computes
`(uint64_t)(*last_index - *cand_index)`: a signed 64-bit difference converted
to `uint64_t`, i.e. reduced modulo `2^64` — there is no `end ≥ start`
guard. -/
def update_cand (max_len : Nat) (st : CueSt) : Bool × CueSt :=
  if st.cand_index != -1 then
    if u64wrap (st.last_index - st.cand_index) > st.largest then
      let lg := u64wrap (st.last_index - st.cand_index)
      (true, { st with largest := lg,
                       path := strlcpyStr st.path st.last_file max_len,
                       offset := u64wrap st.cand_index,
                       size := lg,
                       cand_index := -1 })
    else (false, { st with cand_index := -1 })
  else (false, st)

/-- An unchecked `get_token(fd, tmp_token, MAX_TOKEN_LEN)` call: the callers
of this form ignore the return value; at end of stream the token buffer
keeps its previous contents (the C code returns 0 without storing a new
terminator) and the stream stays exhausted. -/
def tk (input : List Char) (buf : String) : String × List Char :=
  match get_token input with
  | some (t, rest) => (String.mk t, rest)
  | none => (buf, [])

/-- End-of-stream epilogue of `cue_find_track` (src lines 1064-1069). -/
def cueFinish (max_len : Nat) (st : CueSt) : CueOut :=
  let st := if st.file_size != -1 then { st with last_index := st.file_size } else st
  let r := update_cand max_len st
  if st.rv_ok || r.1 then CueOut.ok r.2.offset r.2.size r.2.path
  else CueOut.notFound

/-- The `while (get_token(...) > 0)` loop of `cue_find_track`
(src lines 997-1062), fuel-based.  Each successful `get_token` consumes at
least one input character, so fuel `input.length + 1` never runs out; the
fuel-0 case also runs the epilogue to keep the definition total. -/
def cueLoop (fsize : String → Int) (cue_dir : String) (first : Bool) (max_len : Nat)
    (fuel : Nat) (input : List Char) (_buf : String) (st : CueSt) : CueOut :=
  if fuel = 0 then cueFinish max_len st
  else
    let fuel := fuel - 1
    match get_token input with
    | none => cueFinish max_len st
    | some (t, rest) =>
      let tok := String.mk t
      if strCaseEq tok "FILE" then
        -- Set last index to last EOF
        let st := if st.file_size != -1 then { st with last_index := st.file_size } else st
        -- We're changing files since the candidate, update it
        let r := update_cand max_len st
        let st := if r.1 then { r.2 with rv_ok := true } else r.2
        if r.1 && first then CueOut.ok st.offset st.size st.path
        else
          let p1 := tk rest tok
          let lf := joinPath cue_dir p1.1
          let fs := fsize lf
          let p2 := tk p1.2 p1.1
          cueLoop fsize cue_dir first max_len fuel p2.2 p2.1
            { st with last_file := lf, file_size := fs }
      else if strCaseEq tok "TRACK" then
        let p1 := tk rest tok
        let p2 := tk p1.2 p1.1
        cueLoop fsize cue_dir first max_len fuel p2.2 p2.1
          { st with is_data := !(strCaseEq p2.1 "AUDIO"), track := st.track + 1 }
      else if strCaseEq tok "INDEX" then
        let p1 := tk rest tok
        let p2 := tk p1.2 p1.1
        match sscanf_msf p2.1.data with
        | none => CueOut.parseError
        | some (m, s, f) =>
          -- last_index = (size_t)(((m * 60 + s) * 75) + f) * 2352;
          let li : Int := i64ofU64 (u64wrap ((m * 60 + s) * 75 + f) * 2352 % 2 ^ 64)
          let st := { st with last_index := li }
          -- If we've changed tracks since the candidate, update it
          let r := if st.cand_track != -1 && st.track != st.cand_track then
                     update_cand max_len st
                   else (false, st)
          let st := if r.1 then { r.2 with rv_ok := true } else r.2
          if r.1 && first then CueOut.ok st.offset st.size st.path
          else if !st.is_data then
            cueLoop fsize cue_dir first max_len fuel p2.2 p2.1 st
          else if st.cand_index == -1 then
            cueLoop fsize cue_dir first max_len fuel p2.2 p2.1
              { st with cand_index := li, cand_track := st.track }
          else
            cueLoop fsize cue_dir first max_len fuel p2.2 p2.1 st
      else cueLoop fsize cue_dir first max_len fuel rest tok st
termination_by fuel
decreasing_by all_goals omega

/-- `cue_find_track` (src lines 957-1089).  `input` is the CUE file's
character contents (the opened `intfstream`), `fsize` models the external
`intfstream_get_file_size` applied to a joined path (-1 = failure), and
`cue_dir` models `fill_pathname_basedir(cue_path)`. -/
def cue_find_track (fsize : String → Int) (cue_dir : String)
    (input : List Char) (first : Bool) (max_len : Nat) : CueOut :=
  cueLoop fsize cue_dir first max_len (input.length + 1) input "" {}

/-! ## Specification of candidate resolution (for the selection invariant)

The spec describes the CUE scan as a candidate state machine: a
`TrackCandidate` opens at the `INDEX` of a data track and is confirmed
(resolved) when a later directive — file boundary, track change, or end of
stream — supplies an end offset; the `BestTrack` selection then picks among
the resolved candidates.  `cueEvents` is that state machine with the
selection stripped out: it performs exactly the scan-state transitions of
`cueLoop` and records every resolution event (the `update_cand` calls with
an open candidate) instead of folding them through best-candidate
selection. -/

/-- The scan-state fields of `cue_find_track`'s loop: the candidate state
machine without the selection accumulator (`largest`/out-params/`rv`). -/
structure ScanSt where
  last_index : Int := -1
  cand_index : Int := -1
  cand_track : Int := -1
  track : Int := 0
  file_size : Int := -1
  is_data : Bool := false
  last_file : String := ""
deriving DecidableEq

def CueSt.scan (st : CueSt) : ScanSt :=
  ⟨st.last_index, st.cand_index, st.cand_track, st.track, st.file_size,
   st.is_data, st.last_file⟩

/-- A resolved data-track candidate: start offset and size as the `uint64_t`
values `update_cand` computes, and the referenced file path active at
resolution (untruncated; `strlcpy` truncation is applied at selection). -/
structure CueCand where
  offset : Nat
  size : Nat
  path : String
deriving DecidableEq

/-- Resolution of an open candidate (the unconditional part of
`update_cand`: emit the candidate and clear the slot). -/
def resolveCand (st : ScanSt) : Option CueCand × ScanSt :=
  if st.cand_index != -1 then
    (some ⟨u64wrap st.cand_index, u64wrap (st.last_index - st.cand_index), st.last_file⟩,
     { st with cand_index := -1 })
  else (none, st)

/-- End-of-stream resolution (the epilogue of `cue_find_track`); the `Bool`
is the parse-error flag (always false here). -/
def finishEvents (st : ScanSt) : List CueCand × Bool :=
  let st := if st.file_size != -1 then { st with last_index := st.file_size } else st
  ((resolveCand st).1.toList, false)

/-- The resolution events of a scan, in scan order, plus a flag recording
whether the scan aborts with a timestamp parse error (in which case only the
events before the abort are listed).  Mirrors `cueLoop`'s transitions on the
scan state exactly. -/
def cueEvents (fsize : String → Int) (cue_dir : String)
    (fuel : Nat) (input : List Char) (_buf : String) (st : ScanSt) :
    List CueCand × Bool :=
  if fuel = 0 then finishEvents st
  else
    let fuel := fuel - 1
    match get_token input with
    | none => finishEvents st
    | some (t, rest) =>
      let tok := String.mk t
      if strCaseEq tok "FILE" then
        let st := if st.file_size != -1 then { st with last_index := st.file_size } else st
        let r := resolveCand st
        let p1 := tk rest tok
        let lf := joinPath cue_dir p1.1
        let fs := fsize lf
        let p2 := tk p1.2 p1.1
        let rec1 := cueEvents fsize cue_dir fuel p2.2 p2.1
          { r.2 with last_file := lf, file_size := fs }
        (r.1.toList ++ rec1.1, rec1.2)
      else if strCaseEq tok "TRACK" then
        let p1 := tk rest tok
        let p2 := tk p1.2 p1.1
        cueEvents fsize cue_dir fuel p2.2 p2.1
          { st with is_data := !(strCaseEq p2.1 "AUDIO"), track := st.track + 1 }
      else if strCaseEq tok "INDEX" then
        let p1 := tk rest tok
        let p2 := tk p1.2 p1.1
        match sscanf_msf p2.1.data with
        | none => ([], true)
        | some (m, s, f) =>
          let li : Int := i64ofU64 (u64wrap ((m * 60 + s) * 75 + f) * 2352 % 2 ^ 64)
          let st := { st with last_index := li }
          let r := if st.cand_track != -1 && st.track != st.cand_track then
                     resolveCand st
                   else (none, st)
          let rec1 :=
            if !r.2.is_data then
              cueEvents fsize cue_dir fuel p2.2 p2.1 r.2
            else if r.2.cand_index == -1 then
              cueEvents fsize cue_dir fuel p2.2 p2.1
                { r.2 with cand_index := li, cand_track := r.2.track }
            else cueEvents fsize cue_dir fuel p2.2 p2.1 r.2
          (r.1.toList ++ rec1.1, rec1.2)
      else cueEvents fsize cue_dir fuel rest tok st
termination_by fuel
decreasing_by all_goals omega

/-- The resolved candidates of a CUE input (and the parse-error flag). -/
def cueCandidates (fsize : String → Int) (cue_dir : String) (input : List Char) :
    List CueCand × Bool :=
  cueEvents fsize cue_dir (input.length + 1) input "" {}

/-- The best-candidate selection accumulator: `largest`, the three
out-parameters, and `rv == 0`. -/
structure SelAcc where
  largest : Nat
  offset : Nat
  size : Nat
  path : String
  rv_ok : Bool
deriving DecidableEq

def CueSt.sel (st : CueSt) : SelAcc :=
  ⟨st.largest, st.offset, st.size, st.path, st.rv_ok⟩

/-- The conditional part of `update_cand`: record a resolved candidate when
its size is strictly greater than the best size seen so far. -/
def selStep (max_len : Nat) (a : SelAcc) (c : CueCand) : SelAcc :=
  if c.size > a.largest then
    ⟨c.size, c.offset, c.size, strlcpyStr a.path c.path max_len, true⟩
  else a

def selRun (max_len : Nat) (a : SelAcc) (cands : List CueCand) : SelAcc :=
  cands.foldl (selStep max_len) a

/-- The clean exit of `cue_find_track`: return 0 with the out-parameters
when some candidate was recorded, `-EINVAL` otherwise. -/
def selOut (a : SelAcc) : CueOut :=
  if a.rv_ok then CueOut.ok a.offset a.size a.path else CueOut.notFound

/-! ## GDI playlist scanner: `gdi_find_track` (src lines 1119-1248) -/

/-- Modelled from the spec: libc `atoi` (external): skip leading whitespace,
optional sign, then a run of digits; 0 when there are no digits. -/
def atoiChars (s : List Char) : Int :=
  let digits := fun (l : List Char) =>
    (l.takeWhile Char.isDigit).foldl (fun a c => a * 10 + digitVal c) 0
  match s.dropWhile isSpaceC with
  | [] => 0
  | c :: rest =>
    if c == '-' then -(digits rest)
    else if c == '+' then digits rest
    else digits (c :: rest)

/-- Result of `gdi_find_track`: `ok` models return value 0 with the
`track_path` out-parameter, `notFound` the `-EINVAL` clean exit, `err` the
`goto error` exits (truncated tuple or unreadable referenced file). -/
inductive GdiOut where
  | ok (path : String)
  | notFound
  | err
deriving DecidableEq

/-- The per-track loop of `gdi_find_track` (src lines 1156-1232): reads the
5-tuple (track number, offset, mode, sector size, file name) plus the
trailing disc offset; any missing field is a fatal error.  A track is
examined as data unless `mode == 0 && size == 2352`. -/
def gdiLoop (fsize : String → Int) (gdi_dir : String) (first : Bool) (max_len : Nat)
    (fuel : Nat) (input : List Char) (largest : Nat) (rv_ok : Bool)
    (track_path : String) : GdiOut :=
  if fuel = 0 then if rv_ok then GdiOut.ok track_path else GdiOut.notFound
  else
    let fuel := fuel - 1
    match get_token input with
    | none => if rv_ok then GdiOut.ok track_path else GdiOut.notFound
    | some (_, r1) =>
      -- Offset
      match get_token r1 with
      | none => GdiOut.err
      | some (_, r2) =>
        -- Mode
        match get_token r2 with
        | none => GdiOut.err
        | some (modeT, r3) =>
          let mode := atoiChars modeT
          -- Sector size
          match get_token r3 with
          | none => GdiOut.err
          | some (sizeT, r4) =>
            let size := atoiChars sizeT
            -- File name
            match get_token r4 with
            | none => GdiOut.err
            | some (fileT, r5) =>
              -- Check for data track
              if !(mode == 0 && size == 2352) then
                let last_file := joinPath gdi_dir (String.mk fileT)
                let file_size := fsize last_file
                if file_size < 0 then GdiOut.err
                else if u64wrap file_size > largest then
                  let tp := strlcpyStr track_path last_file max_len
                  if first then GdiOut.ok tp
                  else
                    -- Disc offset (not used?)
                    match get_token r5 with
                    | none => GdiOut.err
                    | some (_, r6) =>
                      gdiLoop fsize gdi_dir first max_len fuel r6
                        (u64wrap file_size) true tp
                else
                  match get_token r5 with
                  | none => GdiOut.err
                  | some (_, r6) =>
                    gdiLoop fsize gdi_dir first max_len fuel r6 largest rv_ok track_path
              else
                match get_token r5 with
                | none => GdiOut.err
                | some (_, r6) =>
                  gdiLoop fsize gdi_dir first max_len fuel r6 largest rv_ok track_path
termination_by fuel
decreasing_by all_goals omega

/-- `gdi_find_track` (src lines 1119-1248): `input` is the GDI file's
character contents, `fsize` models `intfstream_get_file_size` on a joined
path, `gdi_dir` models `fill_pathname_basedir(gdi_path)`. -/
def gdi_find_track (fsize : String → Int) (gdi_dir : String)
    (input : List Char) (first : Bool) (max_len : Nat) : GdiOut :=
  -- Skip track count (return value unchecked)
  let p0 := tk input ""
  gdiLoop fsize gdi_dir first max_len (input.length + 1) p0.2 0 false ""

/-! ## Random-access streams and `detect_system` (src lines 52-73, 896-922) -/

/-- A random-access byte stream: a total size and the byte at each position
(only positions `< size` are ever read).  `intfstream_seek(SEEK_SET)` on a
file stream succeeds for any non-negative offset, so seeking is not
modelled as fallible; a seek past the end simply makes the following read
return zero bytes. -/
structure ByteStream where
  size : Nat
  byte : Nat → Char

/-- `intfstream_read(fd, buf, n)` after seeking to `pos`: returns the bytes
actually read, i.e. `min n (size - pos)` of them. -/
def bs_read (s : ByteStream) (pos n : Nat) : List Char :=
  (List.range (min n (s.size - pos))).map (fun i => s.byte (pos + i))

/-- The `MAGIC_NUMBERS` table (src lines 60-73): offset, system name, magic
bytes; the C `length_magic` field equals the byte list's length.  The three
commented-out WIP entries (wii, cdi, pcecd) and the NULL sentinel are not
part of the scanned data. -/
def MAGIC_NUMBERS : List (Nat × String × List Char) :=
  [ (0x008008, "psp", "PSP GAME".data),
    (0x008008, "ps1", "PLAYSTATION".data),
    (0x00001c, "gc", [Char.ofNat 0xc2, Char.ofNat 0x33, Char.ofNat 0x9f, Char.ofNat 0x3d]),
    (0, "scd", "SEGADISCSYSTEM".data),
    (0, "sat", "SEGA SEGASATURN".data),
    (0, "dc", "SEGA SEGAKATANA".data) ]

/-- The loop of `detect_system` (src lines 902-919): for each entry, seek to
its offset and read `length_magic` bytes; when the read returns more than 0
bytes, `memcmp` the buffer against the magic; a zero-byte read (or, in C, a
failed seek) skips the entry.  When the C read is short (0 < read <
length_magic), `memcmp` also compares stale buffer bytes beyond those read;
the model treats a short read as a mismatch — the entry is then decided by
indeterminate data in C, and no claim exercises that case. -/
def detect_system_go (s : ByteStream) : List (Nat × String × List Char) → Option String
  | [] => none
  | (off, name, magic) :: rest =>
    let r := bs_read s off magic.length
    if r.length > 0 then
      if r == magic then some name else detect_system_go s rest
    else detect_system_go s rest

/-- `detect_system` (src lines 896-922), returning `some system_name` for
`return true` and `none` for `return false`. -/
def detect_system (s : ByteStream) : Option String :=
  detect_system_go s MAGIC_NUMBERS

/-- `detect_system` with its `const char **system_name` out-parameter made
explicit: the C code assigns `*system_name` only at the successful-match
return, so on failure the caller's value is untouched (`getD` keeps the
previous contents). -/
def detect_system_out (s : ByteStream) (system_name : String) : Bool × String :=
  ((detect_system s).isSome, (detect_system s).getD system_name)

/-! ## Saturn serial extractor: `detect_sat_game` (src lines 491-597) -/

/-- `left_and_right_trim_spaces` (src lines 491-508): strip leading and
trailing spaces and tabs. -/
def left_and_right_trim_spaces (s : List Char) : List Char :=
  let t := s.dropWhile (fun c => c == ' ' || c == '\t')
  (t.reverse.dropWhile (fun c => c == ' ' || c == '\t')).reverse

/-- `detect_sat_game` (src lines 510-597), `some game_id` for `return true`.
Two source details are modelled exactly:
* only 9 bytes of the serial field at offset 0x20 are read;
* line 545 executes `raw_game_id[1] = '\0'` after successfully reading the
  region byte (the buffer named there is `raw_game_id`, not
  `raw_region_id`), which truncates the serial buffer to its first
  character.
The `game_id` output buffer is caller-owned and uninitialized; the `E`
branch `strcat`s onto it, modelled as starting from the empty string.
A zero-byte region read leaves `region_id` indeterminate in C; the model
returns `none` there, and no claim exercises that case. -/
def detect_sat_game (s : ByteStream) : Option String :=
  let raw9 := bs_read s 0x0020 9
  if raw9.length == 0 then none
  else
    let regionR := bs_read s 0x0040 1
    let raw_game_id := if regionR.length > 0 then raw9.take 1 else raw9
    match regionR with
    | [] => none
    | region_id :: _ =>
      let raw1 := left_and_right_trim_spaces raw_game_id
      let length := raw1.length
      if region_id == 'U' then
        if raw1.take 3 == "MK-".data then
          some (String.mk ((raw1.drop 3).take (length - 3)))
        else
          some (String.mk (raw1.take length))
      else if region_id == 'E' then
        some (String.mk (raw1.take 2 ++ (raw1.drop 2).take (length - 1) ++ "-50".data))
      else if region_id == 'J' then
        some (String.mk (raw1.take length))
      else none

/-! ## Dreamcast serial extractor: `detect_dc_game` (src lines 599-847) -/

/-- `replace_multi_space_with_single_space` (src lines 632-645): collapse
each run of two or more spaces to a single space (the C loop skips a space
whose successor is also a space). -/
def replace_multi_space : List Char → List Char
  | [] => []
  | c :: rest =>
    match rest with
    | [] => [c]
    | c2 :: _ =>
      if c == ' ' && c2 == ' ' then replace_multi_space rest
      else c :: replace_multi_space rest

/-- `replace_space_with_single_character` (src lines 614-630): map every
`isspace` byte to the given character. -/
def replace_space_with (t : Char) (s : List Char) : List Char :=
  s.map (fun c => if isSpaceC c then t else c)

/-- `count_occurances_single_character` (src lines 599-612). -/
def count_occurances (s : List Char) (t : Char) : Nat :=
  (s.filter (fun c => c == t)).length

/-- `index_last_occurance` (src lines 407-412): index of the last occurrence
via `strrchr`, or -1. -/
def index_last_occurance (s : List Char) (t : Char) : Int :=
  match (((s.enum).filter (fun p => p.2 == t)).map (fun p => p.1)).getLast? with
  | some i => (i : Int)
  | none => -1

/-- `detect_dc_game` (src lines 647-847), `some game_id` for `return true`,
`none` for `return false`.  The `game_id`/`pre_game_id` buffers are built by
`strcat` from caller-owned/uninitialized storage, modelled as starting
empty.  `strncpy(dst, src + i, n)` bounded copies are modelled as
`(drop i).take n` of the source (the copy stops at the source terminator).
Note the `MK-` branch: when the normalized serial's length is ≥ 9 the code
assembles `game_id` but ends the branch without a `return`, falling through
to the final `return false`. -/
def detect_dc_game (s : ByteStream) : Option String :=
  let raw10 := bs_read s 0x0040 10
  if raw10.length == 0 then none
  else
    let t1 := left_and_right_trim_spaces raw10
    let t2 := replace_multi_space t1
    let raw := replace_space_with '-' t2
    let length := raw.length
    let total_hyphens := count_occurances raw '-'
    if raw.take 2 == "T-".data then
      if total_hyphens ≥ 2 then
        let index := index_last_occurance raw '-'
        if index < 0 then none
        else
          let i := index.toNat
          some (String.mk (raw.take i ++ '-' :: (raw.drop (i + 1)).take (length - 1)))
      else if total_hyphens == 1 then
        if length ≤ 7 then some (String.mk (raw.take 7))
        else
          -- length >= 8
          some (String.mk (raw.take 7 ++ '-' :: (raw.drop (length - 2)).take (length - 1)))
      else none
    else if raw.take 1 == "T".data then
      let pre := 'T' :: '-' :: (raw.drop 1).take (length - 1)
      let thr := count_occurances pre '-'
      if thr ≥ 2 then
        let index := index_last_occurance pre '-'
        if index < 0 then none
        else
          let i := index.toNat
          let lr := pre.length
          some (String.mk (pre.take i ++ '-' :: (pre.drop (lr - 2)).take (lr - 1)))
      else if thr == 1 then
        let lr := pre.length - 1
        if lr ≤ 8 then some (String.mk (pre.take 9))
        else
          -- length_recalc >= 9
          some (String.mk (pre.take 7 ++ '-' :: (pre.drop (lr - 2)).take (lr - 1)))
      else none
    else if raw.take 4 == "HDR-".data then
      if total_hyphens ≥ 2 then
        let index := index_last_occurance raw '-'
        if index < 0 then none
        else
          let i := index.toNat
          some (String.mk (raw.take (i - 1) ++ '-' :: (raw.drop (length - 4)).take (length - 3)))
      else some (String.mk raw)
    else if raw.take 3 == "MK-".data then
      if length ≤ 8 then some (String.mk (raw.take 8))
      else
        -- length >= 9: lgame_id/rgame_id are concatenated into game_id,
        -- but the branch has no return statement: control reaches the
        -- function's final `return false`.
        none
    else none

/-! ## Concrete inputs used by the claims -/

/-- A one-file, one-data-track CUE sheet with the given `INDEX 01`
timestamp token. -/
def cueSheet (ts : String) : List Char :=
  ("FILE \"track.bin\" BINARY\nTRACK 01 MODE1/2352\nINDEX 01 " ++ ts ++ "\n").data

/-- Two files, each holding one data track starting at `INDEX 01 00:00:00`,
so each track's resolved size is its file's size. -/
def cue2 : List Char :=
  ("FILE \"a.bin\" BINARY\nTRACK 01 MODE1/2352\nINDEX 01 00:00:00\n" ++
   "FILE \"b.bin\" BINARY\nTRACK 02 MODE1/2352\nINDEX 01 00:00:00\n").data

/-- File sizes for `cue2`: `a.bin` has size `s1`, `b.bin` has size `s2`. -/
def cue2fsize (s1 s2 : Nat) : String → Int :=
  fun p => if p == "d/a.bin" then (s1 : Int) else (s2 : Int)

/-- One file whose second track's `INDEX 01 00:00:00` timestamp is smaller
than the open first-track candidate's start `INDEX 01 00:02:00`. -/
def cueNegSpan : List Char :=
  ("FILE \"a.bin\" BINARY\nTRACK 01 MODE1/2352\nINDEX 01 00:02:00\n" ++
   "TRACK 02 MODE1/2352\nINDEX 01 00:00:00\n").data

/-- 2-track GDI: track 1 audio (`mode=0 size=2352`), track 2 data
(`mode=4 size=2048`). -/
def gdi2 : List Char :=
  "2\n1 0 0 2352 track1.bin 0\n2 600 4 2048 track2.bin 0\n".data

/-- 1-track GDI holding only the canonical raw audio layout. -/
def gdiAudioOnly : List Char := "1\n1 0 0 2352 track1.bin 0\n".data

/-- 1-track GDI with `mode=0` but `size=2048` (classified data). -/
def gdiMode0 : List Char := "1\n1 0 0 2048 t.bin 0\n".data

/-- 1-track GDI with `size=2352` but `mode=4` (classified data). -/
def gdiMode4 : List Char := "1\n1 0 4 2352 t.bin 0\n".data

/-- A stream holding the given bytes at offset `off`, `'x'` around them,
and ending right after them. -/
def mkStream (off : Nat) (content : List Char) : ByteStream :=
  ⟨off + content.length, fun i => if i < off then 'x' else content.getD (i - off) 'x'⟩

/-- Bytes `50 53 50 20 47 41 4D 45` ("PSP GAME") at offset 0x8008. -/
def pspStream : ByteStream := mkStream 0x8008 "PSP GAME".data

/-- Bytes `50 4C 41 59 53 54 41 54 49 4F 4E` ("PLAYSTATION") at 0x8008. -/
def ps1Stream : ByteStream := mkStream 0x8008 "PLAYSTATION".data

/-- A long stream of `'x'` bytes matching no magic-number entry. -/
def plainStream : ByteStream := ⟨0x9000, fun _ => 'x'⟩

/-- Saturn stream: serial field bytes `"  MK-81060 "` at offset 0x20 and
region byte `'U'` at offset 0x40. -/
def satStream : ByteStream :=
  ⟨0x41, fun i =>
    if 0x20 ≤ i && i < 0x2b then "  MK-81060 ".data.getD (i - 0x20) 'x'
    else if i == 0x40 then 'U' else 'x'⟩

/-- Dreamcast stream with 10-byte header serial `"MK-51000  "` (normalizes
to the 8-character `MK-51000`). -/
def dcStream8 : ByteStream := mkStream 0x40 "MK-51000  ".data

/-- Dreamcast stream with 10-byte header serial `"MK-5100002"` (normalized
length 10 ≥ 9). -/
def dcStream10 : ByteStream := mkStream 0x40 "MK-5100002".data

/-! # Theorems -/

/-! ## Helper lemmas -/

theorem gtok_acc_plain (rest : List Char) :
    ∀ (t acc : List Char), (∀ c ∈ t, plainChar c = true) →
      acc.length + t.length < 255 → acc.reverse ++ t ≠ [] →
      gtok_acc 255 (t ++ ' ' :: rest) acc false = some (acc.reverse ++ t, rest)
  | [], acc, _, _, hne => by
    have hacc : acc ≠ [] := by simpa using hne
    cases acc with
    | nil => exact absurd rfl hacc
    | cons a as => simp [gtok_acc, isTokWS]
  | c :: t2, acc, hplain, hlen, _ => by
    have hc : plainChar c = true := hplain c (by simp)
    have hws : isTokWS c = false := by
      cases h : isTokWS c
      · rfl
      · simp [plainChar, h] at hc
    have hq : (c == '"') = false := by
      cases h : c == '"'
      · rfl
      · simp [plainChar, bne, h] at hc
    have hlen2 : (acc.length + 1 == 255) = false := by
      have h : acc.length + 1 ≠ 255 := by simp at hlen; omega
      simpa using h
    have hlen3 : acc.length ≠ 254 := by simp at hlen; omega
    have ih := gtok_acc_plain rest t2 (c :: acc)
      (fun x hx => hplain x (by simp [hx]))
      (by simp at hlen ⊢; omega)
      (by simp)
    calc gtok_acc 255 ((c :: t2) ++ ' ' :: rest) acc false
        = gtok_acc 255 (t2 ++ ' ' :: rest) (c :: acc) false := by
          simp [gtok_acc, hws, hq, hlen2, hlen3]
      _ = some ((c :: acc).reverse ++ t2, rest) := ih
      _ = some (acc.reverse ++ (c :: t2), rest) := by simp

theorem get_token_plain (t rest : List Char) (h : wfTok t) :
    get_token (t ++ ' ' :: rest) = some (t, rest) := by
  have := gtok_acc_plain rest t [] h.2.2 (by simpa using h.2.1) (by simpa using h.1)
  simpa [get_token] using this

theorem tokensGo_nil : ∀ f, tokensGo f [] = []
  | 0 => rfl
  | _ + 1 => rfl

theorem tokensGo_sep :
    ∀ (toks : List (List Char)) (fuel : Nat), (∀ t ∈ toks, wfTok t) →
      (sepSp toks ++ [' ']).length < fuel →
      tokensGo fuel (sepSp toks ++ [' ']) = toks
  | [], fuel, _, hf => by
    match fuel, hf with
    | f + 1, _ => simp [sepSp, tokensGo, get_token, gtok_acc, isTokWS]
  | [t], fuel, hwf, hf => by
    have ht : wfTok t := hwf t (by simp)
    match fuel, hf with
    | f + 1, _ =>
      have : sepSp [t] ++ [' '] = t ++ ' ' :: [] := by simp [sepSp]
      rw [this]
      simp only [tokensGo, get_token_plain t [] ht, tokensGo_nil]
  | t :: t2 :: ts, fuel, hwf, hf => by
    have ht : wfTok t := hwf t (by simp)
    have hsh : sepSp (t :: t2 :: ts) ++ [' ']
        = t ++ ' ' :: (sepSp (t2 :: ts) ++ [' ']) := by simp [sepSp]
    match fuel, hf with
    | f + 1, hf =>
      rw [hsh]
      simp only [tokensGo, get_token_plain t _ ht]
      have htlen : 0 < t.length := List.length_pos.mpr ht.1
      have hrec : (sepSp (t2 :: ts) ++ [' ']).length < f := by
        rw [hsh] at hf; simp at hf ⊢; omega
      rw [tokensGo_sep (t2 :: ts) f (fun u hu => hwf u (by simp [hu])) hrec]

/-- C5 counterexample: the input `AB` (no quotes, no trailing delimiter)
consists of the single token `AB`, but `get_token` reaches end of stream
before any delimiter and returns 0, so the token list is empty and re-joining
it does not reproduce the input. -/
theorem c5_tokenizer_roundtrip_counterexample :
    tokensOf ['A', 'B'] = [] ∧ sepSp (tokensOf ['A', 'B']) ≠ ['A', 'B'] := by
  decide

/-- C5 (amended): for every quote-free input whose tokens are separated by
single spaces *and which ends with a trailing delimiter*, the sequence of
tokens returned by successive `get_token` calls is exactly the token list,
and re-joining them with single spaces reproduces the original input minus
the trailing delimiter.  (The unamended claim fails: a final token not
followed by any delimiter is discarded, because `get_token` returns 0 as soon
as a read yields zero bytes, even mid-token.) -/
theorem c5_tokenizer_roundtrip_amended (toks : List (List Char))
    (hwf : ∀ t ∈ toks, wfTok t) :
    tokensOf (sepSp toks ++ [' ']) = toks ∧
    sepSp (tokensOf (sepSp toks ++ [' '])) = sepSp toks := by
  have h := tokensGo_sep toks ((sepSp toks ++ [' ']).length + 1) hwf (by omega)
  exact ⟨h, by rw [tokensOf]; rw [h]⟩

theorem c5_tokenizer_roundtrip_amended_witness :
    tokensOf (sepSp [['A', 'B'], ['C', 'D']] ++ [' ']) = [['A', 'B'], ['C', 'D']] ∧
    sepSp (tokensOf (sepSp [['A', 'B'], ['C', 'D']] ++ [' ']))
      = sepSp [['A', 'B'], ['C', 'D']] :=
  c5_tokenizer_roundtrip_amended [['A', 'B'], ['C', 'D']] (by decide)


theorem u64wrap_lit (n : Int) (h0 : 0 ≤ n) (h1 : n < 2 ^ 64) : u64wrap n = n.toNat := by
  unfold u64wrap; rw [Int.emod_eq_of_lt h0 h1]

theorem i64ofU64_lit (n : Nat) (h : n < 2 ^ 63) : i64ofU64 n = n := by
  unfold i64ofU64; rw [if_pos h]

theorem u64wrap_natCast (n : Nat) (h : n < 2 ^ 64) : u64wrap (n : Int) = n := by
  unfold u64wrap
  rw [Int.emod_eq_of_lt (by omega) (by push_cast; omega)]
  omega

/-! ## C1: single-FILE, single-data-track CUE sheet -/

/-- C1 counterexample: with the referenced file exactly 352800 bytes long,
the claim predicts success with `size = S - 352800 = 0`, but `update_cand`
only records a candidate when its size is *strictly* greater than the best
seen so far (0), so `cue_find_track` returns `-EINVAL` (not found). -/
theorem c1_cue_single_track_counterexample :
    cue_find_track (fun _ => (352800 : Int)) "d/" (cueSheet "00:02:00") true 4096
        = CueOut.notFound ∧
    CueOut.notFound ≠ CueOut.ok 352800 (352800 - 352800) "d/track.bin" := by
  refine ⟨?_, by decide⟩
  simp [cue_find_track, cueLoop, cueFinish, update_cand, get_token, gtok_acc, tk,
    strCaseEq, lowerA, isTokWS, isSpaceC, sscanf_msf, scanInt2, matchColon, digitVal,
    Char.isDigit, joinPath, strlcpyStr, cueSheet, u64wrap, i64ofU64]

/-- C1 (amended): for a CUE sheet with one `FILE` of size `S`, one
`TRACK 01 MODE1/2352` and one `INDEX 01 00:02:00`, *provided*
`S > 352800 = 2*75*2352` (and `S` fits in a non-negative `int64_t`),
`cue_find_track(first=true)` succeeds with offset `352800`, size
`S - 352800`, and the referenced file's joined path. -/
theorem c1_cue_single_track_amended (S : Nat) (h1 : 352800 < S) (h2 : S < 2 ^ 63) :
    cue_find_track (fun _ => (S : Int)) "d/" (cueSheet "00:02:00") true 4096
      = CueOut.ok 352800 (S - 352800) "d/track.bin" := by
  have e1 : ((S : Int) != -1) = true := by simp [bne]
  have e2 : u64wrap ((S : Int) - 352800) = S - 352800 := by
    unfold u64wrap
    rw [Int.emod_eq_of_lt (by omega) (by push_cast; omega)]
    omega
  have e3 : 0 < S - 352800 := by omega
  simp [cue_find_track, cueLoop, cueFinish, update_cand, get_token, gtok_acc, tk,
    strCaseEq, lowerA, isTokWS, isSpaceC, sscanf_msf, scanInt2, matchColon, digitVal,
    Char.isDigit, joinPath, strlcpyStr, cueSheet, e1, e2, e3,
    u64wrap_lit 150 (by norm_num) (by norm_num),
    u64wrap_lit 352800 (by norm_num) (by norm_num),
    i64ofU64_lit 352800 (by norm_num)]

theorem c1_cue_single_track_amended_witness :
    cue_find_track (fun _ => (400000 : Int)) "d/" (cueSheet "00:02:00") true 4096
      = CueOut.ok 352800 (400000 - 352800) "d/track.bin" :=
  c1_cue_single_track_amended 400000 (by norm_num) (by norm_num)

/-! ## C2: candidate selection among the resolved data tracks -/

/-- Chained `strlcpy` copies into the same buffer: only the last source
matters (and with bound 0 nothing is ever written). -/
theorem strlcpy_strlcpy (p x y : String) (n : Nat) :
    strlcpyStr (strlcpyStr p x n) y n = strlcpyStr p y n := by
  unfold strlcpyStr
  by_cases h : n = 0 <;> simp [h]

/-- The epilogue of `cue_find_track` is the selection fold of the
end-of-stream resolution event. -/
theorem cueFinish_sim (ml : Nat) (st : CueSt) :
    cueFinish ml st = selOut (selRun ml st.sel (finishEvents st.scan).1) := by
  unfold cueFinish finishEvents resolveCand update_cand selOut selRun selStep
  simp only [CueSt.scan, CueSt.sel]
  by_cases hf : (st.file_size != -1) = true <;>
    by_cases hc : (st.cand_index != -1) = true <;>
      simp_all <;> split <;> simp_all

/-- Simulation, `first = false`: the scan loop equals the best-candidate
selection fold over the resolution events harvested by `cueEvents`, unless
a timestamp parse error aborts it. -/
theorem cueLoop_false_sim (fsize : String → Int) (dir : String) (ml : Nat) :
    ∀ (fuel : Nat) (input : List Char) (buf : String) (st : CueSt),
      cueLoop fsize dir false ml fuel input buf st =
        (if (cueEvents fsize dir fuel input buf st.scan).2 then CueOut.parseError
         else selOut (selRun ml st.sel (cueEvents fsize dir fuel input buf st.scan).1)) := by
  intro fuel
  induction fuel with
  | zero =>
    intro input buf st
    rw [cueLoop, cueEvents]
    simp only [if_pos rfl]
    rw [cueFinish_sim]
    simp [finishEvents]
  | succ fuel ih =>
    intro input buf st
    rw [cueLoop, cueEvents]
    simp only [Nat.succ_ne_zero, if_false, Nat.add_sub_cancel, Nat.add_one_sub_one]
    cases hg : get_token input with
    | none =>
      rw [cueFinish_sim]
      simp [finishEvents]
    | some pr =>
      obtain ⟨t, rest⟩ := pr
      by_cases h1 : strCaseEq (String.mk t) "FILE" = true
      · by_cases hf : (st.file_size != -1) = true
        · by_cases hc : (st.cand_index != -1) = true
          · by_cases hw : st.largest < u64wrap (st.file_size - st.cand_index)
            · simp only [h1, hf, hc, hw, update_cand, resolveCand, CueSt.scan, CueSt.sel,
                selRun, selStep, if_true, if_pos, Option.toList, List.cons_append,
                List.nil_append, List.foldl_cons, Bool.and_false, Bool.false_and,
                if_false, ite_true, ite_false, decide_True, decide_eq_true_eq]
              simp only [ih]
              simp [CueSt.scan, CueSt.sel, hw, hc, hf, strlcpy_strlcpy, selRun, selStep]
            · simp only [h1, hf, hc, hw, update_cand, resolveCand, CueSt.scan, CueSt.sel,
                selRun, selStep]
              simp only [ih]
              simp [CueSt.scan, CueSt.sel, hw, hc, hf, selRun, selStep]
          · simp only [h1, hf, hc, update_cand, resolveCand, CueSt.scan, CueSt.sel,
              selRun, selStep]
            simp only [ih]
            simp [CueSt.scan, CueSt.sel, hc, hf, selRun, selStep]
        · by_cases hc : (st.cand_index != -1) = true
          · by_cases hw : st.largest < u64wrap (st.last_index - st.cand_index)
            · simp only [h1, hf, hc, hw, update_cand, resolveCand, CueSt.scan, CueSt.sel,
                selRun, selStep]
              simp only [ih]
              simp [CueSt.scan, CueSt.sel, hw, hc, hf, strlcpy_strlcpy, selRun, selStep]
            · simp only [h1, hf, hc, hw, update_cand, resolveCand, CueSt.scan, CueSt.sel,
                selRun, selStep]
              simp only [ih]
              simp [CueSt.scan, CueSt.sel, hw, hc, hf, selRun, selStep]
          · simp only [h1, hf, hc, update_cand, resolveCand, CueSt.scan, CueSt.sel,
              selRun, selStep]
            simp only [ih]
            simp [CueSt.scan, CueSt.sel, hc, hf, selRun, selStep]
      · by_cases h2 : strCaseEq (String.mk t) "TRACK" = true
        · simp only [h1, h2]
          simp only [ih]
          simp [CueSt.scan, CueSt.sel]
        · by_cases h3 : strCaseEq (String.mk t) "INDEX" = true
          · cases hp : sscanf_msf (tk (tk rest (String.mk t)).2 (tk rest (String.mk t)).1).1.data with
            | none => simp [h1, h2, h3, hp]
            | some mf =>
              obtain ⟨m, s, f⟩ := mf
              by_cases hcc : ((st.cand_track != -1) && (st.track != st.cand_track)) = true
              · by_cases hc : (st.cand_index != -1) = true
                · by_cases hw : st.largest < u64wrap
                      (i64ofU64 (u64wrap ((m * 60 + s) * 75 + f) * 2352
                        % 18446744073709551616) - st.cand_index) <;>
                    by_cases hd : st.is_data = true <;>
                      (simp only [h1, h2, h3, hp, hcc, hc, hw, hd, update_cand, resolveCand,
                         CueSt.scan, CueSt.sel, selRun, selStep]
                       simp only [ih]
                       simp [CueSt.scan, CueSt.sel, hw, hc, hd, strlcpy_strlcpy, selRun, selStep])
                · have hcEq : st.cand_index = -1 := by simpa using hc
                  by_cases hd : st.is_data = true <;>
                    (simp only [h1, h2, h3, hp, hcc, hc, hd, update_cand, resolveCand,
                       CueSt.scan, CueSt.sel, selRun, selStep]
                     simp only [ih]
                     simp [CueSt.scan, CueSt.sel, hcEq, hd, selRun, selStep])
              · by_cases hd : st.is_data = true <;>
                  by_cases hc2 : (st.cand_index == -1) = true <;>
                    (simp only [h1, h2, h3, hp, hcc, hd, hc2, update_cand, resolveCand,
                       CueSt.scan, CueSt.sel, selRun, selStep]
                     simp only [ih]
                     simp [CueSt.scan, CueSt.sel, hd, hc2, selRun, selStep])
          · simp only [h1, h2, h3]
            simp only [ih]
            simp [CueSt.scan, CueSt.sel]

/-- The epilogue, phrased as "first event above the current best wins"
(used by the `first = true` simulation). -/
theorem cueFinish_first_sim (ml : Nat) (st : CueSt) (hrv : st.rv_ok = false) :
    cueFinish ml st =
      (match (finishEvents st.scan).1.find? (fun c => decide (st.largest < c.size)) with
       | some c => CueOut.ok c.offset c.size (strlcpyStr st.path c.path ml)
       | none => CueOut.notFound) := by
  unfold cueFinish finishEvents resolveCand update_cand
  simp only [CueSt.scan]
  by_cases hf : (st.file_size != -1) = true <;>
    by_cases hc : (st.cand_index != -1) = true <;>
      simp_all <;> split <;> simp_all

/-- Simulation, `first = true`: the scan stops at (and returns) the first
resolution event whose size beats the best size seen so far; a parse error
is reported only when no such event precedes it. -/
theorem cueLoop_true_sim (fsize : String → Int) (dir : String) (ml : Nat) :
    ∀ (fuel : Nat) (input : List Char) (buf : String) (st : CueSt), st.rv_ok = false →
      cueLoop fsize dir true ml fuel input buf st =
        (match (cueEvents fsize dir fuel input buf st.scan).1.find?
            (fun c => decide (st.largest < c.size)) with
         | some c => CueOut.ok c.offset c.size (strlcpyStr st.path c.path ml)
         | none =>
           if (cueEvents fsize dir fuel input buf st.scan).2 then CueOut.parseError
           else CueOut.notFound) := by
  intro fuel
  induction fuel with
  | zero =>
    intro input buf st hrv
    rw [cueLoop, cueEvents]
    simp only [if_pos rfl]
    rw [cueFinish_first_sim ml st hrv]
    simp [finishEvents]
  | succ fuel ih =>
    intro input buf st hrv
    rw [cueLoop, cueEvents]
    simp only [Nat.succ_ne_zero, if_false, Nat.add_sub_cancel, Nat.add_one_sub_one]
    cases hg : get_token input with
    | none =>
      rw [cueFinish_first_sim ml st hrv]
      simp [finishEvents]
    | some pr =>
      obtain ⟨t, rest⟩ := pr
      by_cases h1 : strCaseEq (String.mk t) "FILE" = true
      · by_cases hf : (st.file_size != -1) = true
        · by_cases hc : (st.cand_index != -1) = true
          · by_cases hw : st.largest < u64wrap (st.file_size - st.cand_index)
            · simp [h1, hf, hc, hw, update_cand, resolveCand, CueSt.scan]
            · simp only [h1, hf, hc, hw, update_cand, resolveCand, CueSt.scan]
              simp [CueSt.scan, hw, hc, hf, hrv]
              refine (ih _ _ _ rfl).trans ?_
              simp [CueSt.scan, hw, hc, hf, hrv]
          · simp only [h1, hf, hc, update_cand, resolveCand, CueSt.scan]
            simp [CueSt.scan, hc, hf, hrv]
            refine (ih _ _ _ rfl).trans ?_
            simp [CueSt.scan, hc, hf, hrv]
        · by_cases hc : (st.cand_index != -1) = true
          · by_cases hw : st.largest < u64wrap (st.last_index - st.cand_index)
            · simp [h1, hf, hc, hw, update_cand, resolveCand, CueSt.scan]
            · simp only [h1, hf, hc, hw, update_cand, resolveCand, CueSt.scan]
              simp [CueSt.scan, hw, hc, hf, hrv]
              refine (ih _ _ _ rfl).trans ?_
              simp [CueSt.scan, hw, hc, hf, hrv]
          · simp only [h1, hf, hc, update_cand, resolveCand, CueSt.scan]
            simp [CueSt.scan, hc, hf, hrv]
            refine (ih _ _ _ rfl).trans ?_
            simp [CueSt.scan, hc, hf, hrv]
      · by_cases h2 : strCaseEq (String.mk t) "TRACK" = true
        · simp only [h1, h2]
          simp [CueSt.scan, hrv]
          refine (ih _ _ _ rfl).trans ?_
          simp [CueSt.scan, hrv]
        · by_cases h3 : strCaseEq (String.mk t) "INDEX" = true
          · cases hp : sscanf_msf (tk (tk rest (String.mk t)).2 (tk rest (String.mk t)).1).1.data with
            | none => simp [h1, h2, h3, hp]
            | some mf =>
              obtain ⟨m, s, f⟩ := mf
              by_cases hcc : ((st.cand_track != -1) && (st.track != st.cand_track)) = true
              · by_cases hc : (st.cand_index != -1) = true
                · by_cases hw : st.largest < u64wrap
                      (i64ofU64 (u64wrap ((m * 60 + s) * 75 + f) * 2352
                        % 18446744073709551616) - st.cand_index)
                  · simp [h1, h2, h3, hp, hcc, hc, hw, update_cand, resolveCand, CueSt.scan]
                  · by_cases hd : st.is_data = true <;>
                      (simp only [h1, h2, h3, hp, hcc, hc, hw, hd, update_cand, resolveCand,
                         CueSt.scan]
                       simp [CueSt.scan, hw, hc, hd, hrv]
                       refine (ih _ _ _ rfl).trans ?_
                       simp [CueSt.scan, hw, hc, hd, hrv])
                · have hcEq : st.cand_index = -1 := by simpa using hc
                  by_cases hd : st.is_data = true <;>
                    (simp only [h1, h2, h3, hp, hcc, hc, hd, update_cand, resolveCand,
                       CueSt.scan]
                     simp [CueSt.scan, hcEq, hd, hrv]
                     refine (ih _ _ _ rfl).trans ?_
                     simp [CueSt.scan, hcEq, hd, hrv])
              · by_cases hd : st.is_data = true <;>
                  by_cases hc2 : (st.cand_index == -1) = true <;>
                    (simp only [h1, h2, h3, hp, hcc, hd, hc2, update_cand, resolveCand,
                       CueSt.scan]
                     simp [CueSt.scan, hd, hc2, hrv]
                     refine (ih _ _ _ rfl).trans ?_
                     simp [CueSt.scan, hd, hc2, hrv])
          · simp only [h1, h2, h3]
            simp [CueSt.scan, hrv]
            refine (ih _ _ _ hrv).trans ?_
            simp [CueSt.scan, hrv]

/-- The selection fold ignores candidates no larger than the current best. -/
theorem selRun_skip (ml : Nat) : ∀ (cands : List CueCand) (a : SelAcc),
    (∀ d ∈ cands, d.size ≤ a.largest) → selRun ml a cands = a
  | [], _, _ => rfl
  | c :: cs, a, h => by
    have hc : c.size ≤ a.largest := h c (by simp)
    have hstep : selStep ml a c = a := by
      unfold selStep; rw [if_neg (by omega)]
    simp only [selRun, List.foldl_cons, hstep]
    exact selRun_skip ml cs a (fun d hd => h d (by simp [hd]))

/-- Characterization of the selection fold: whenever some candidate beats
the initial best, the fold ends on a candidate `c` that splits the list as
`pre ++ c :: post` with every earlier candidate strictly smaller and every
later one no larger — the greatest size wins, ties in favour of the
earlier-seen candidate. -/
theorem selRun_char (ml : Nat) : ∀ (cands : List CueCand) (a : SelAcc),
    (∃ d ∈ cands, a.largest < d.size) →
    ∃ c pre post, cands = pre ++ c :: post ∧ a.largest < c.size ∧
      (∀ d ∈ pre, d.size < c.size) ∧ (∀ d ∈ post, d.size ≤ c.size) ∧
      selRun ml a cands = ⟨c.size, c.offset, c.size, strlcpyStr a.path c.path ml, true⟩
  | [], a, h => by simp at h
  | c0 :: cs, a, h => by
    by_cases hw : a.largest < c0.size
    · have hstep : selStep ml a c0
          = ⟨c0.size, c0.offset, c0.size, strlcpyStr a.path c0.path ml, true⟩ := by
        unfold selStep; rw [if_pos (by omega)]
      by_cases hex : ∃ d ∈ cs, c0.size < d.size
      · obtain ⟨c, pre, post, hsplit, hlt, hpre, hpost, hrun⟩ :=
          selRun_char ml cs ⟨c0.size, c0.offset, c0.size, strlcpyStr a.path c0.path ml, true⟩
            (by simpa using hex)
        refine ⟨c, c0 :: pre, post, by simp [hsplit], ?_, ?_, hpost, ?_⟩
        · simp at hlt; omega
        · intro d hd
          rcases List.mem_cons.mp hd with rfl | hd2
          · simp at hlt; omega
          · exact hpre d hd2
        · simp only [selRun, List.foldl_cons, hstep] at hrun ⊢
          rw [hrun]
          simp [strlcpy_strlcpy]
      · push_neg at hex
        refine ⟨c0, [], cs, rfl, hw, by simp, fun d hd => hex d hd, ?_⟩
        simp only [selRun, List.foldl_cons, hstep]
        exact selRun_skip ml cs _ (fun d hd => by have := hex d hd; simpa using this)
    · have hstep : selStep ml a c0 = a := by
        unfold selStep; rw [if_neg (by omega)]
      have hex : ∃ d ∈ cs, a.largest < d.size := by
        obtain ⟨d, hd, hlt⟩ := h
        rcases List.mem_cons.mp hd with rfl | hd2
        · omega
        · exact ⟨d, hd2, hlt⟩
      obtain ⟨c, pre, post, hsplit, hlt, hpre, hpost, hrun⟩ := selRun_char ml cs a hex
      refine ⟨c, c0 :: pre, post, by simp [hsplit], hlt, ?_, hpost, ?_⟩
      · intro d hd
        rcases List.mem_cons.mp hd with rfl | hd2
        · omega
        · exact hpre d hd2
      · simp only [selRun, List.foldl_cons, hstep]
        exact hrun

/-- Top-level corollary of the `first = false` simulation at the initial
scan state. -/
theorem cue_find_track_false_eq (fsize : String → Int) (cue_dir : String)
    (input : List Char) (ml : Nat) :
    cue_find_track fsize cue_dir input false ml =
      (if (cueCandidates fsize cue_dir input).2 then CueOut.parseError
       else selOut (selRun ml ⟨0, 0, 0, "", false⟩ (cueCandidates fsize cue_dir input).1)) := by
  have h := cueLoop_false_sim fsize cue_dir ml (input.length + 1) input "" {}
  simpa [cue_find_track, cueCandidates, CueSt.scan, CueSt.sel] using h

/-- Top-level corollary of the `first = true` simulation at the initial
scan state. -/
theorem cue_find_track_true_eq (fsize : String → Int) (cue_dir : String)
    (input : List Char) (ml : Nat) :
    cue_find_track fsize cue_dir input true ml =
      (match (cueCandidates fsize cue_dir input).1.find? (fun c => decide (0 < c.size)) with
       | some c => CueOut.ok c.offset c.size (strlcpyStr "" c.path ml)
       | none => if (cueCandidates fsize cue_dir input).2 then CueOut.parseError
                 else CueOut.notFound) := by
  have h := cueLoop_true_sim fsize cue_dir ml (input.length + 1) input "" {} rfl
  simpa [cue_find_track, cueCandidates, CueSt.scan, CueSt.sel] using h

/-- C2: selection invariant of `cue_find_track`, for *every* CUE input
stream, file-size oracle, base directory and `max_len`, stated against the
resolved-candidate sequence `cueCandidates` (the scan's resolution events in
scan order — file boundaries, track changes and end of stream included):
* with `first = true` the scan returns the first candidate that resolves to
  a positive size — the result is fully determined by that first candidate,
  so scanning stops there (a parse error or not-found can only be reported
  when no such candidate precedes it);
* with `first = false` (and no parse error) the scan returns a candidate of
  *positive maximal* resolved size such that every earlier-seen candidate is
  strictly smaller — i.e. the greatest size wins and ties are broken in
  favour of the earlier-seen track; if no candidate resolves positively the
  scan reports not-found;
* in particular, on the two-data-track sheet with sizes 10 and 100,
  `first = false` returns the 100-byte track `b.bin` and `first = true`
  returns the first-in-file-order track `a.bin`. -/
theorem c2_cue_candidate_selection :
    (∀ (fsize : String → Int) (cue_dir : String) (input : List Char) (max_len : Nat),
      (cue_find_track fsize cue_dir input true max_len =
        match (cueCandidates fsize cue_dir input).1.find? (fun c => decide (0 < c.size)) with
        | some c => CueOut.ok c.offset c.size (strlcpyStr "" c.path max_len)
        | none =>
          if (cueCandidates fsize cue_dir input).2 then CueOut.parseError
          else CueOut.notFound) ∧
      ((cueCandidates fsize cue_dir input).2 = true →
        cue_find_track fsize cue_dir input false max_len = CueOut.parseError) ∧
      ((cueCandidates fsize cue_dir input).2 = false →
        (∀ c ∈ (cueCandidates fsize cue_dir input).1, c.size = 0) →
        cue_find_track fsize cue_dir input false max_len = CueOut.notFound) ∧
      ((cueCandidates fsize cue_dir input).2 = false →
        ∀ c0 ∈ (cueCandidates fsize cue_dir input).1, 0 < c0.size →
          ∃ c pre post,
            (cueCandidates fsize cue_dir input).1 = pre ++ c :: post ∧ 0 < c.size ∧
            (∀ d ∈ pre, d.size < c.size) ∧ (∀ d ∈ post, d.size ≤ c.size) ∧
            cue_find_track fsize cue_dir input false max_len =
              CueOut.ok c.offset c.size (strlcpyStr "" c.path max_len))) ∧
    cue_find_track (cue2fsize 10 100) "d/" cue2 false 4096 = CueOut.ok 0 100 "d/b.bin" ∧
    cue_find_track (cue2fsize 10 100) "d/" cue2 true 4096 = CueOut.ok 0 10 "d/a.bin" := by
  refine ⟨fun fsize cue_dir input ml =>
    ⟨cue_find_track_true_eq fsize cue_dir input ml, ?_, ?_, ?_⟩, ?_, ?_⟩
  · intro hperr
    rw [cue_find_track_false_eq]
    simp [hperr]
  · intro hperr hzero
    rw [cue_find_track_false_eq]
    rw [selRun_skip ml _ _ (fun d hd => by simp [hzero d hd])]
    simp [hperr, selOut]
  · intro hperr c0 hc0 hpos
    obtain ⟨c, pre, post, hsplit, hlt, hpre, hpost, hrun⟩ :=
      selRun_char ml (cueCandidates fsize cue_dir input).1 ⟨0, 0, 0, "", false⟩
        ⟨c0, hc0, by simpa using hpos⟩
    refine ⟨c, pre, post, hsplit, by simpa using hlt, hpre, hpost, ?_⟩
    rw [cue_find_track_false_eq]
    simp [hperr, hrun, selOut]
  · simp [cue_find_track, cueLoop, cueFinish, update_cand, get_token, gtok_acc, tk,
      strCaseEq, lowerA, isTokWS, isSpaceC, sscanf_msf, scanInt2, matchColon, digitVal,
      Char.isDigit, joinPath, strlcpyStr, cue2, cue2fsize, u64wrap, i64ofU64]
  · simp [cue_find_track, cueLoop, cueFinish, update_cand, get_token, gtok_acc, tk,
      strCaseEq, lowerA, isTokWS, isSpaceC, sscanf_msf, scanInt2, matchColon, digitVal,
      Char.isDigit, joinPath, strlcpyStr, cue2, cue2fsize, u64wrap, i64ofU64]

/-- Witness: the selection invariant applied at the two-track 10/100 sheet,
discharging its hypotheses there: the parse succeeds, the candidate list is
`[(0,10,a.bin), (0,100,b.bin)]`, and the returned 100-byte winner admits the
greatest-size/earlier-seen decomposition. -/
theorem c2_cue_candidate_selection_witness :
    ∃ c pre post,
      (cueCandidates (cue2fsize 10 100) "d/" cue2).1 = pre ++ c :: post ∧ 0 < c.size ∧
      (∀ d ∈ pre, d.size < c.size) ∧ (∀ d ∈ post, d.size ≤ c.size) ∧
      cue_find_track (cue2fsize 10 100) "d/" cue2 false 4096 =
        CueOut.ok c.offset c.size (strlcpyStr "" c.path 4096) :=
  (c2_cue_candidate_selection.1 (cue2fsize 10 100) "d/" cue2 4096).2.2.2
    (by simp [cueCandidates, cueEvents, finishEvents, resolveCand, get_token, gtok_acc,
          tk, strCaseEq, lowerA, isTokWS, isSpaceC, sscanf_msf, scanInt2, matchColon,
          digitVal, Char.isDigit, joinPath, cue2, cue2fsize, u64wrap, i64ofU64])
    ⟨0, 10, "d/a.bin"⟩
    (by simp [cueCandidates, cueEvents, finishEvents, resolveCand, get_token, gtok_acc,
          tk, strCaseEq, lowerA, isTokWS, isSpaceC, sscanf_msf, scanInt2, matchColon,
          digitVal, Char.isDigit, joinPath, cue2, cue2fsize, u64wrap, i64ofU64])
    (by norm_num)

/-! ## C3: negative candidate spans wrap modulo 2^64 -/

/-- C3: on a sheet whose second track's `INDEX 01 00:00:00` byte offset (0)
is smaller than the open first-track candidate's start (352800),
`update_cand` computes `(uint64_t)(0 - 352800) = 2^64 - 352800`, finds it
greater than the best size so far, and records it as the winning track:
`cue_find_track` returns success with a wrapped size above `2^63` instead
of rejecting the negative span. -/
theorem c3_negative_span_wrapped :
    cue_find_track (fun _ => (2 ^ 40 : Int)) "d/" cueNegSpan true 4096
        = CueOut.ok 352800 (2 ^ 64 - 352800) "d/a.bin" ∧
    2 ^ 63 < 2 ^ 64 - 352800 := by
  refine ⟨?_, by norm_num⟩
  simp [cue_find_track, cueLoop, cueFinish, update_cand, get_token, gtok_acc, tk,
    strCaseEq, lowerA, isTokWS, isSpaceC, sscanf_msf, scanInt2, matchColon, digitVal,
    Char.isDigit, joinPath, strlcpyStr, cueNegSpan, u64wrap, i64ofU64]

/-! ## C4: INDEX timestamp parsing -/

/-- C4 counterexample: by the claim, the one-digit-field timestamp `1:2:3`
must be a fatal parse error; instead `sscanf("%02d:%02d:%02d")` accepts up
to two digits per field, so the scan succeeds and converts `m=1,s=2,f=3`
into the offset `((1*60+2)*75+3)*2352`. -/
theorem c4_index_timestamp_counterexample :
    cue_find_track (fun _ => (2 ^ 40 : Int)) "d/" (cueSheet "1:2:3") true 4096
        ≠ CueOut.parseError ∧
    cue_find_track (fun _ => (2 ^ 40 : Int)) "d/" (cueSheet "1:2:3") true 4096
        = CueOut.ok (((1 * 60 + 2) * 75 + 3) * 2352)
            (2 ^ 40 - ((1 * 60 + 2) * 75 + 3) * 2352) "d/track.bin" := by
  have h : cue_find_track (fun _ => (2 ^ 40 : Int)) "d/" (cueSheet "1:2:3") true 4096
      = CueOut.ok (((1 * 60 + 2) * 75 + 3) * 2352)
          (2 ^ 40 - ((1 * 60 + 2) * 75 + 3) * 2352) "d/track.bin" := by
    simp [cue_find_track, cueLoop, cueFinish, update_cand, get_token, gtok_acc, tk,
      strCaseEq, lowerA, isTokWS, isSpaceC, sscanf_msf, scanInt2, matchColon, digitVal,
      Char.isDigit, joinPath, strlcpyStr, cueSheet, u64wrap, i64ofU64]
  exact ⟨by rw [h]; decide, h⟩

/-- C4 (amended): `INDEX` timestamps are parsed with the `sscanf`
`"%02d:%02d:%02d"` semantics — each field converts *up to* two digits (one
digit is accepted; three digits are not, since the literal `:` must match
after at most two), a token where fewer than three fields convert is a
fatal parse error aborting the scan, and a successfully parsed timestamp
is converted to the byte offset `((m*60+s)*75+f)*2352`. -/
theorem c4_index_timestamp_amended :
    sscanf_msf "1:2:3".data = some (1, 2, 3) ∧
    cue_find_track (fun _ => (2 ^ 40 : Int)) "d/" (cueSheet "0:2:0") true 4096
      = CueOut.ok (((0 * 60 + 2) * 75 + 0) * 2352)
          (2 ^ 40 - ((0 * 60 + 2) * 75 + 0) * 2352) "d/track.bin" ∧
    cue_find_track (fun _ => (2 ^ 40 : Int)) "d/" (cueSheet "00:02:00") true 4096
      = CueOut.ok (((0 * 60 + 2) * 75 + 0) * 2352)
          (2 ^ 40 - ((0 * 60 + 2) * 75 + 0) * 2352) "d/track.bin" ∧
    sscanf_msf "123:45:67".data = none ∧
    cue_find_track (fun _ => (2 ^ 40 : Int)) "d/" (cueSheet "123:45:67") true 4096
      = CueOut.parseError ∧
    sscanf_msf "ab:cd:ef".data = none ∧
    cue_find_track (fun _ => (2 ^ 40 : Int)) "d/" (cueSheet "ab:cd:ef") true 4096
      = CueOut.parseError := by
  refine ⟨by decide, ?_, ?_, by decide, ?_, by decide, ?_⟩ <;>
    simp [cue_find_track, cueLoop, cueFinish, update_cand, get_token, gtok_acc, tk,
      strCaseEq, lowerA, isTokWS, isSpaceC, sscanf_msf, scanInt2, matchColon, digitVal,
      Char.isDigit, joinPath, strlcpyStr, cueSheet, u64wrap, i64ofU64]

/-! ## C6: Saturn serial extraction -/

/-- C6: on a stream holding `"  MK-81060 "` at offset 0x20 and region byte
`'U'` at 0x40, `detect_sat_game` returns *success with the empty serial*,
not `"81060"`: the code reads only 9 of the 11 serial bytes, and after
reading the region byte it stores the terminator into `raw_game_id[1]`
(line 545; `raw_region_id[1]` was evidently intended), truncating the
serial buffer to its first byte — a space — which trims to the empty
string. -/
theorem c6_sat_serial_result :
    detect_sat_game satStream = some "" ∧ (some "" : Option String) ≠ some "81060" := by
  decide

/-! ## C7: magic-number table scan -/

/-- C7: `detect_system` classifies "PSP GAME" at 0x8008 as `psp` and
"PLAYSTATION" at 0x8008 as `ps1` (the earlier psp entry at the same offset
does not falsely match), and returns failure on a stream matching no
entry. -/
theorem c7_detect_system_magic :
    detect_system pspStream = some "psp" ∧
    detect_system ps1Stream = some "ps1" ∧
    detect_system plainStream = none := by
  decide

/-! ## C8: GDI track classification -/

/-- C8: a GDI track is treated as data iff not (`mode == 0` and
`sector_size == 2352`): the 2-track GDI (track 1 audio `0/2352`, track 2
data `4/2048`) resolves to track 2's joined path under both `first`
settings; an audio-only GDI reports not-found; and each of
`mode=0,size=2048` and `mode=4,size=2352` is still classified data. -/
theorem c8_gdi_track_classification :
    gdi_find_track (fun _ => 1000) "d/" gdi2 false 4096 = GdiOut.ok "d/track2.bin" ∧
    gdi_find_track (fun _ => 1000) "d/" gdi2 true 4096 = GdiOut.ok "d/track2.bin" ∧
    gdi_find_track (fun _ => 1000) "d/" gdiAudioOnly false 4096 = GdiOut.notFound ∧
    gdi_find_track (fun _ => 1000) "d/" gdiMode0 false 4096 = GdiOut.ok "d/t.bin" ∧
    gdi_find_track (fun _ => 1000) "d/" gdiMode4 false 4096 = GdiOut.ok "d/t.bin" := by
  have hu : u64wrap 1000 = 1000 := by decide
  refine ⟨?_, ?_, ?_, ?_, ?_⟩ <;>
    simp [gdi_find_track, gdiLoop, atoiChars, get_token, gtok_acc, tk,
      isTokWS, isSpaceC, digitVal, Char.isDigit, joinPath, strlcpyStr,
      gdi2, gdiAudioOnly, gdiMode0, gdiMode4, hu]

/-! ## C9: Dreamcast decoder fall-through -/

/-- C9: the `MK-` branch of `detect_dc_game` is reachable and returns a
serial when the normalized length is ≤ 8 (header `"MK-51000  "`), but for a
normalized length ≥ 9 (header `"MK-5100002"`) the same recognized branch
assembles the serial and then falls through without a `return`, so the call
reports failure. -/
theorem c9_dc_mk_fallthrough :
    detect_dc_game dcStream8 = some "MK-51000" ∧
    detect_dc_game dcStream10 = none := by
  decide

/-! ## C10: detect_system's out-parameter frame effect -/

/-- C10: for every stream, `detect_system` either succeeds with the
system-name out-parameter set to one of the six configured table names, or
fails leaving the out-parameter unchanged (the C code writes
`*system_name` only at the successful-match return). -/
theorem detect_system_go_names (s : ByteStream) :
    ∀ (l : List (Nat × String × List Char)) (n : String),
      detect_system_go s l = some n → n ∈ l.map (fun e => e.2.1)
  | [], n, h => by simp [detect_system_go] at h
  | (off, name, magic) :: rest, n, h => by
    simp only [detect_system_go] at h
    split at h
    · split at h
      · injection h with h
        simp [h]
      · simp only [List.map_cons, List.mem_cons]
        exact Or.inr (detect_system_go_names s rest n h)
    · simp only [List.map_cons, List.mem_cons]
      exact Or.inr (detect_system_go_names s rest n h)

theorem c10_detect_system_frame (s : ByteStream) (prev : String) :
    match detect_system s with
    | some n =>
        n ∈ ["psp", "ps1", "gc", "scd", "sat", "dc"] ∧
        detect_system_out s prev = (true, n)
    | none => detect_system_out s prev = (false, prev) := by
  cases h : detect_system s with
  | none => simp [detect_system_out, h]
  | some n =>
    refine ⟨?_, by simp [detect_system_out, h]⟩
    have hm := detect_system_go_names s MAGIC_NUMBERS n h
    simpa [MAGIC_NUMBERS] using hm

end RetroArchCue
